import Mathlib

/-!
Verification of the tabular data-shaping logic of a spreadsheet viewer
(board_excel_intelligence_platform_full.py).

The embedding models the dataframe-level logic of the script: column-name
sanitization, missing-value display blanking, numeric dtype detection, the
2-vs-6 decimal heuristic, the per-column formatting loop, per-sheet
executive insights, the plain-text PDF serialization, and the consolidated
cross-file accumulator loop.

Modelling conventions:
  * A cell is `empty` (missing / NaN), a number (an exact rational standing
    for the Python float/int), or a text string, following the data model
    (cells hold text, numeric, or empty values).
  * A column's dtype is numeric exactly when no cell is text: pandas infers
    a numeric (float/int) dtype for columns of numbers and missing values,
    and `object` as soon as a string is present.
  * Python `round(x, 2)` and fixed-decimal `f"..."` formatting round
    half-to-even; they are modelled exactly on rationals.
  * Aggregations (`sum`, `max`, `min`) skip missing values at every level,
    as pandas does with its default `skipna=True`; a `max`/`min` over no
    values is `none` (pandas NaN).
  * Fallible code (the f-string formatter raises on a non-number) returns
    `Option`.
-/

/-- A cell value: missing (NaN), a number, or a text string. -/
inductive Cell where
  | empty
  | num (q : ℚ)
  | str (s : String)
  deriving DecidableEq

/-- A raw column-header label before sanitization: Python `None`, a float
NaN, a text label, or a numeric label. -/
inductive Label where
  | noneL
  | nanL
  | strL (s : String)
  | numL (q : ℚ)
  deriving DecidableEq

/-- A named column of a dataframe. -/
structure Col where
  name : String
  cells : List Cell
  deriving DecidableEq

/-- A raw column as read from a worksheet, before header sanitization. -/
structure RawCol where
  label : Label
  cells : List Cell
  deriving DecidableEq

/-- A dataframe: an ordered sequence of named columns. -/
structure DF where
  cols : List Col
  deriving DecidableEq

/-- pandas `shape[0]`: the common row count (length of the first column;
`0` when there are no columns). -/
def DF.nrow (df : DF) : Nat :=
  match df.cols with
  | [] => 0
  | c :: _ => c.cells.length

/-- pandas `shape[1]`: the column count. -/
def DF.ncol (df : DF) : Nat := df.cols.length

/-- pandas `DataFrame.empty`: true when either axis has length zero. -/
def DF.isEmpty (df : DF) : Bool := df.nrow == 0 || df.ncol == 0

/-- Rectangularity: every column has the frame's row count.  Every frame
produced by `pd.read_excel` satisfies this. -/
def Rect (df : DF) : Prop := ∀ c ∈ df.cols, c.cells.length = df.nrow

instance (df : DF) : Decidable (Rect df) :=
  inferInstanceAs (Decidable (∀ c ∈ df.cols, c.cells.length = df.nrow))

/-- Round a rational to the nearest integer, ties to even — the rounding
used by Python `round` and by fixed-decimal float formatting. -/
def roundHalfEven (y : ℚ) : ℤ :=
  let f := ⌊y⌋
  if y - f < 1/2 then f
  else if 1/2 < y - f then f + 1
  else if f % 2 = 0 then f else f + 1

/-- Python `round(x, 2)`. -/
def pyRound2 (x : ℚ) : ℚ := (roundHalfEven (100 * x) : ℚ) / 100

/-- Left-pad a digit string with zeros to width `d`. -/
def padZeros (d : Nat) (s : String) : String :=
  String.mk (List.replicate (d - s.length) '0') ++ s

/-- Python `f"\x7bx:.df\x7d"`: fixed-decimal rendering with `d` decimals. -/
def formatFixed (d : Nat) (q : ℚ) : String :=
  let n := (roundHalfEven (|q| * (10 ^ d : ℚ))).toNat
  let base :=
    if d = 0 then toString n
    else toString (n / 10 ^ d) ++ "." ++ padZeros d (toString (n % 10 ^ d))
  if q < 0 then "-" ++ base else base

/-- Fuel-bounded count of decimal digits needed to write `q` exactly
(floats are dyadic, so the bound is never reached on modelled values). -/
def minDecFuel : Nat → ℚ → Nat
  | 0, _ => 0
  | fuel + 1, q => if q.den = 1 then 0 else minDecFuel fuel (q * 10) + 1

/-- Python `str` of a float in our exact-rational idealization: the
shortest decimal expansion, with at least one fractional digit
(`str(1.0) = "1.0"`). -/
def floatStr (q : ℚ) : String := formatFixed (max 1 (minDecFuel 60 q)) q

/-- Python `str` of a cell value (`str(nan) = "nan"`). -/
def pyStr : Cell → String
  | .str s => s
  | .empty => "nan"
  | .num q => floatStr q

/-- Whether a cell is not a text value. -/
def cellNotStr : Cell → Bool
  | .str _ => false
  | _ => true

/-- Embeds `pd.api.types.is_numeric_dtype` and membership in
`select_dtypes(include=np.number)`: the column's dtype is numeric iff no cell is text. -/
def is_numeric (cells : List Cell) : Bool := cells.all cellNotStr

/-- The result of `series.dropna()` restricted to the numbers it contains. -/
def numsOf (cells : List Cell) : List ℚ :=
  cells.filterMap (fun c => match c with | .num q => some q | _ => none)

/-- Embeds `needs_six_decimals(series)`: false on a non-numeric series, otherwise
true iff some non-null value moves by more than `1e-6` when rounded to two
decimals. -/
def needs_six_decimals (cells : List Cell) : Bool :=
  if is_numeric cells then
    (numsOf cells).any (fun x => decide ((1/1000000 : ℚ) < |x - pyRound2 x|))
  else false

/-- Action of `safe_display` on one cell: a missing value becomes the empty string. -/
def safe_display_cell : Cell → Cell
  | .empty => .str ""
  | c => c

/-- Embeds `safe_display(df) = df.where(pd.notna(df), "")`. -/
def safe_display (df : DF) : DF :=
  ⟨df.cols.map (fun c => ⟨c.name, c.cells.map safe_display_cell⟩)⟩

/-- One entry of the `sanitize_columns` comprehension: label at index `i`
becomes `Column_i` when it is `None` or a float NaN, else its `str`. -/
def sanitize_label (i : Nat) (c : Label) : String :=
  match c with
  | .noneL => "Column_" ++ toString i
  | .nanL => "Column_" ++ toString i
  | .strL s => s
  | .numL q => floatStr q

/-- The `sanitize_columns` comprehension from position `i` on. -/
def sanitizeColsFrom (i : Nat) : List RawCol → List Col
  | [] => []
  | rc :: rcs => ⟨sanitize_label i rc.label, rc.cells⟩ :: sanitizeColsFrom (i + 1) rcs

/-- Embeds `sanitize_columns(df)`: replace each `None`/NaN header at index `i` by
`Column_i`, stringify the rest; cell data is untouched. -/
def sanitize_columns (rdf : List RawCol) : DF := ⟨sanitizeColsFrom 0 rdf⟩

/-- The column names after sanitization. -/
def sanitized_names (rdf : List RawCol) : List String :=
  (sanitize_columns rdf).cols.map (fun c => c.name)

/-- Lines 135–137 of the script: read, sanitize headers, blank missing
cells for display (`raw_df = safe_display(sanitize_columns(raw_df))`). -/
def load_display (rdf : List RawCol) : DF := safe_display (sanitize_columns rdf)

/-- A per-column decimals setting: `"Auto"`, `2`, or `6`. -/
inductive DecSetting where
  | auto
  | two
  | six
  deriving DecidableEq

/-- The decimals chosen by the format loop for a numeric column. -/
def chosenDecimals (ds : DecSetting) (cells : List Cell) : Nat :=
  match ds with
  | .auto => if needs_six_decimals cells then 6 else 2
  | .two => 2
  | .six => 6

/-- Embeds `format_series(series, decimals)`: null renders as `""`, a number as
its fixed-decimal string; applying the float format code to a text value
raises in Python, hence `none`. -/
def format_series (d : Nat) : List Cell → Option (List Cell)
  | [] => some []
  | .empty :: cs => (format_series d cs).map (fun r => .str "" :: r)
  | .num q :: cs => (format_series d cs).map (fun r => .str (formatFixed d q) :: r)
  | .str _ :: _ => none

/-- Embeds `series.astype(str)`. -/
def astype_str (cells : List Cell) : List Cell := cells.map (fun c => .str (pyStr c))

/-- The body of the format loop for one column: numeric columns go through
`format_series` with the chosen decimals, others through `astype(str)`. -/
def format_col (ds : DecSetting) (cells : List Cell) : Option (List Cell) :=
  if is_numeric cells then format_series (chosenDecimals ds cells) cells
  else some (astype_str cells)

/-- The format loop over a list of columns, names preserved in place. -/
def format_cols (settings : String → DecSetting) : List Col → Option (List Col)
  | [] => some []
  | c :: cs =>
    match format_col (settings c.name) c.cells, format_cols settings cs with
    | some out, some rest => some (⟨c.name, out⟩ :: rest)
    | _, _ => none

/-- Lines 164–177: `formatted_df` computed column by column from `raw_df`
and the per-column settings. -/
def format_df (settings : String → DecSetting) (df : DF) : Option DF :=
  (format_cols settings df.cols).map DF.mk

/-- Embeds `df.select_dtypes(include=np.number)`: keep the numeric-dtype columns. -/
def select_numeric (df : DF) : DF := ⟨df.cols.filter (fun c => is_numeric c.cells)⟩

/-- pandas `Series.max` over a list of (non-null) values. -/
def list_max? : List ℚ → Option ℚ
  | [] => none
  | x :: xs =>
    match list_max? xs with
    | none => some x
    | some m => some (max x m)

/-- pandas `Series.min` over a list of (non-null) values. -/
def list_min? : List ℚ → Option ℚ
  | [] => none
  | x :: xs =>
    match list_min? xs with
    | none => some x
    | some m => some (min x m)

/-- A column's `sum()` (skipna: missing values contribute nothing). -/
def col_sum (cells : List Cell) : ℚ := (numsOf cells).sum

/-- A column's `max()` (`none` = NaN when no non-null value exists). -/
def col_max? (cells : List Cell) : Option ℚ := list_max? (numsOf cells)

/-- A column's `min()` (`none` = NaN when no non-null value exists). -/
def col_min? (cells : List Cell) : Option ℚ := list_min? (numsOf cells)

/-- Embeds `df.sum().sum()`: column sums, then their sum. -/
def df_sum_sum (df : DF) : ℚ := (df.cols.map (fun c => col_sum c.cells)).sum

/-- Embeds `df.max().max()`: column maxima, then their maximum, skipping NaN
entries at both levels. -/
def df_max_max? (df : DF) : Option ℚ :=
  list_max? (df.cols.filterMap (fun c => col_max? c.cells))

/-- Embeds `df.min().min()`: column minima, then their minimum, skipping NaN
entries at both levels. -/
def df_min_min? (df : DF) : Option ℚ :=
  list_min? (df.cols.filterMap (fun c => col_min? c.cells))

/-- All non-null numeric values of a frame, flattened column by column. -/
def flat_nums (df : DF) : List ℚ := (df.cols.map (fun c => numsOf c.cells)).flatten

/-- The numeric part of the per-sheet Executive Insights panel. -/
structure NumericInsights where
  ncols : Nat
  total : ℚ
  maxV : Option ℚ
  minV : Option ℚ
  deriving DecidableEq

/-- The per-sheet Executive Insights panel (lines 210–220). -/
structure SheetInsights where
  rows : Nat
  cols : Nat
  numeric : Option NumericInsights
  deriving DecidableEq

/-- Lines 210–220: row/column counts always; the numeric aggregates only
when the numeric selection is non-empty, otherwise the informational
"no numeric data" branch (`numeric = none`). -/
def executive_insights (raw_df : DF) : SheetInsights :=
  let numeric_df := select_numeric raw_df
  { rows := raw_df.nrow
    cols := raw_df.ncol
    numeric :=
      if numeric_df.isEmpty then none
      else some
        { ncols := numeric_df.ncol
          total := pyRound2 (df_sum_sum numeric_df)
          maxV := (df_max_max? numeric_df).map pyRound2
          minV := (df_min_min? numeric_df).map pyRound2 } }

/-- Row `i` of a frame, in column order (`iterrows` / `row.values`). -/
def df_row (df : DF) (i : Nat) : List Cell :=
  df.cols.map (fun c => c.cells.getD i .empty)

/-- One body line of the PDF text: the row's values stringified and
pipe-joined positionally. -/
def pdf_row_line (df : DF) (i : Nat) : String :=
  String.intercalate " | " ((df_row df i).map pyStr)

/-- Lines 231–238: the text document written to the PDF — title line,
sheet-name line, blank line, pipe-joined header line, a rule of 120
dashes, then one pipe-joined line per row of the formatted table. -/
def pdf_text_lines (file_name sheet_name : String) (fdf : DF) : List String :=
  ("Executive View – " ++ file_name) ::
  ("Sheet: " ++ sheet_name) ::
  "" ::
  String.intercalate " | " (fdf.cols.map (fun c => c.name)) ::
  String.mk (List.replicate 120 '-') ::
  (List.range fdf.nrow).map (pdf_row_line fdf)

/-- The download name offered for the export. -/
def pdf_file_name (sheet_name : String) : String := sheet_name ++ "_Executive_View.pdf"

/-- The externally visible steps of the export action, in program order. -/
inductive PdfEvent where
  | allocTemp
  | writeDoc
  | offerDownload
  | removeTemp
  deriving DecidableEq

/-- Lines 224–252 are straight-line: allocate the temp file, write the
document, offer the download, then `os.remove` the temp file. -/
def pdf_export_events : List PdfEvent :=
  [.allocTemp, .writeDoc, .offerDownload, .removeTemp]

/-- The consolidated-insights accumulator (lines 260–263). -/
structure CState where
  total_rows : Nat
  total_numeric_cols : Nat
  global_sum : ℚ
  global_max : Option (Option ℚ)
  deriving DecidableEq

/-- Embeds `total_rows = 0; total_numeric_cols = 0; global_sum = 0;
global_max = None`.  `global_max` distinguishes Python `None` (`none`)
from a float, which may itself be NaN (`some none`). -/
def init_cstate : CState := ⟨0, 0, 0, none⟩

/-- Python `>` between two floats that may be NaN: any comparison with
NaN is false. -/
def py_gt : Option ℚ → Option ℚ → Bool
  | some x, some y => decide (y < x)
  | _, _ => false

/-- Embeds `if global_max is None or max_val > global_max: global_max = max_val`:
the running-maximum update of the consolidated loop. -/
def gmax_update (g : Option (Option ℚ)) (max_val : Option ℚ) : Option (Option ℚ) :=
  match g with
  | none => some max_val
  | some gv => if py_gt max_val gv then some max_val else some gv

/-- One iteration of the consolidated loop (lines 266–277) on one sheet:
re-read and sanitize (no display blanking here), add the row count and the
numeric-column count, and when the numeric selection is non-empty add its
total to `global_sum` and update `global_max` by comparison. -/
def consolidated_step (s : CState) (sh : List RawCol) : CState :=
  let df := sanitize_columns sh
  let num_df := select_numeric df
  if num_df.isEmpty then
    { s with
      total_rows := s.total_rows + df.nrow,
      total_numeric_cols := s.total_numeric_cols + num_df.ncol }
  else
    { total_rows := s.total_rows + df.nrow,
      total_numeric_cols := s.total_numeric_cols + num_df.ncol,
      global_sum := s.global_sum + df_sum_sum num_df,
      global_max := gmax_update s.global_max (df_max_max? num_df) }

/-- The consolidated loop over every sheet of every uploaded file. -/
def consolidated (files : List (List (List RawCol))) : CState :=
  files.foldl (fun s wb => wb.foldl consolidated_step s) init_cstate

/-! ### Helper lemmas on sanitization -/

theorem sanitizeColsFrom_length (rdf : List RawCol) :
    ∀ k, (sanitizeColsFrom k rdf).length = rdf.length := by
  induction rdf with
  | nil => intro k; rfl
  | cons c cs ih => intro k; simp [sanitizeColsFrom, ih]

theorem sanitizeColsFrom_names_getD (rdf : List RawCol) :
    ∀ k i, i < rdf.length →
      ((sanitizeColsFrom k rdf).map (fun c => c.name)).getD i "" =
        sanitize_label (k + i) ((rdf.getD i ⟨Label.noneL, []⟩).label) := by
  induction rdf with
  | nil => intro k i h; simp at h
  | cons c cs ih =>
    intro k i h
    cases i with
    | zero => simp [sanitizeColsFrom]
    | succ n =>
      simp only [sanitizeColsFrom, List.map_cons, List.getD_cons_succ]
      have hn : n < cs.length := by
        simpa using Nat.lt_of_succ_lt_succ (by simpa using h)
      have := ih (k + 1) n hn
      rw [show k + (n + 1) = k + 1 + n by omega]
      exact this

theorem mem_sanitizeColsFrom_names (rdf : List RawCol) :
    ∀ k s0, s0 ∈ (sanitizeColsFrom k rdf).map (fun c => c.name) ↔
      ∃ i, i < rdf.length ∧
        s0 = sanitize_label (k + i) ((rdf.getD i ⟨Label.noneL, []⟩).label) := by
  induction rdf with
  | nil => intro k s0; simp [sanitizeColsFrom]
  | cons c cs ih =>
    intro k s0
    simp only [sanitizeColsFrom, List.map_cons, List.mem_cons, ih (k + 1)]
    constructor
    · rintro (h | ⟨i, hi, he⟩)
      · exact ⟨0, by simp, by simpa using h⟩
      · refine ⟨i + 1, by simpa using Nat.succ_lt_succ hi, ?_⟩
        rw [show k + (i + 1) = k + 1 + i by omega]
        simpa using he
    · rintro ⟨i, hi, he⟩
      cases i with
      | zero => left; simpa using he
      | succ n =>
        right
        refine ⟨n, by simpa using Nat.lt_of_succ_lt_succ (by simpa using hi), ?_⟩
        rw [show k + 1 + n = k + (n + 1) by omega]
        simpa using he

theorem nodup_sanitizeColsFrom_names (rdf : List RawCol) :
    ∀ k, (∀ i j, i < j → j < rdf.length →
        sanitize_label (k + i) ((rdf.getD i ⟨Label.noneL, []⟩).label) ≠
          sanitize_label (k + j) ((rdf.getD j ⟨Label.noneL, []⟩).label)) →
      ((sanitizeColsFrom k rdf).map (fun c => c.name)).Nodup := by
  induction rdf with
  | nil => intro k _; simp [sanitizeColsFrom]
  | cons c cs ih =>
    intro k h
    simp only [sanitizeColsFrom, List.map_cons, List.nodup_cons]
    constructor
    · intro hmem
      rw [mem_sanitizeColsFrom_names] at hmem
      obtain ⟨i, hi, he⟩ := hmem
      have hne := h 0 (i + 1) (Nat.succ_pos i)
        (by simpa using Nat.succ_lt_succ hi)
      apply hne
      simp only [List.getD_cons_zero, List.getD_cons_succ, Nat.add_zero]
      rw [show k + (i + 1) = k + 1 + i by omega]
      exact he
    · apply ih (k + 1)
      intro i j hij hj
      have hne := h (i + 1) (j + 1) (Nat.succ_lt_succ hij)
        (by simpa using Nat.succ_lt_succ hj)
      simp only [List.getD_cons_succ] at hne
      rw [show k + 1 + i = k + (i + 1) by omega,
          show k + 1 + j = k + (j + 1) by omega]
      exact hne

/-- Claim C1 counterexample: the header row `["Column_1", None]` sanitizes
to the duplicated names `["Column_1", "Column_1"]`, so sanitization does
not make column names unique for every input header row; likewise an
empty-string label passes through, so names are not always non-empty. -/
theorem c1_counterexample :
    sanitized_names [⟨Label.strL "Column_1", []⟩, ⟨Label.noneL, []⟩] =
      ["Column_1", "Column_1"] ∧
    ¬ (sanitized_names [⟨Label.strL "Column_1", []⟩, ⟨Label.noneL, []⟩]).Nodup ∧
    sanitized_names [⟨Label.strL "", []⟩] = [""] := by
  refine ⟨rfl, by decide, rfl⟩

/-- Claim C1 (amended): for every header row, the sanitized name at index
`i` is `Column_i` when the raw label is `None` or a float NaN and the
stringified original label otherwise; the resulting names are unique
provided distinct indices map to distinct names (in particular this fails
when a literal label collides with a positional placeholder, or when two
present labels are duplicates). -/
theorem c1_sanitize_mapping (rdf : List RawCol) :
    (∀ i, i < rdf.length →
      (sanitized_names rdf).getD i "" =
        sanitize_label i ((rdf.getD i ⟨Label.noneL, []⟩).label)) ∧
    ((∀ i ∈ List.range rdf.length, ∀ j ∈ List.range rdf.length, i < j →
        sanitize_label i ((rdf.getD i ⟨Label.noneL, []⟩).label) ≠
          sanitize_label j ((rdf.getD j ⟨Label.noneL, []⟩).label)) →
      (sanitized_names rdf).Nodup) := by
  constructor
  · intro i hi
    have := sanitizeColsFrom_names_getD rdf 0 i hi
    simpa [sanitized_names, sanitize_columns] using this
  · intro h
    have := nodup_sanitizeColsFrom_names rdf 0 (by
      intro i j hij hj
      have hi : i < rdf.length := Nat.lt_trans hij hj
      simpa using h i (List.mem_range.2 hi) j (List.mem_range.2 hj) hij)
    simpa [sanitized_names, sanitize_columns] using this

/-- Witness for C1: a sheet with a missing first header and a present
second header gets names `["Column_0", "Revenue"]`, which are distinct. -/
theorem c1_sanitize_mapping_witness :
    (sanitized_names [⟨Label.noneL, []⟩, ⟨Label.strL "Revenue", []⟩]).getD 0 "" =
      "Column_0" ∧
    (sanitized_names [⟨Label.noneL, []⟩, ⟨Label.strL "Revenue", []⟩]).Nodup := by
  constructor
  · rw [(c1_sanitize_mapping [⟨Label.noneL, []⟩, ⟨Label.strL "Revenue", []⟩]).1 0
      (by decide)]
    rfl
  · exact (c1_sanitize_mapping [⟨Label.noneL, []⟩, ⟨Label.strL "Revenue", []⟩]).2
      (by decide)

/-! ### Helper lemmas on rounding -/

theorem roundHalfEven_intCast (m : ℤ) : roundHalfEven (m : ℚ) = m := by
  unfold roundHalfEven
  rw [Int.floor_intCast]
  simp

theorem pyRound2_of_den_one (q : ℚ) (h : q.den = 1) : pyRound2 q = q := by
  have h1 : ((q.num : ℚ)) = q := by
    have h2 := Rat.num_div_den q
    rw [h] at h2
    simpa using h2
  have h3 : (100 : ℚ) * q = ((100 * q.num : ℤ) : ℚ) := by
    push_cast
    rw [h1]
  rw [pyRound2, h3, roundHalfEven_intCast]
  push_cast
  rw [mul_div_cancel_left₀ _ (by norm_num : (100 : ℚ) ≠ 0)]
  exact h1

/-- Claim C2: with the Auto setting, a numeric column's display precision
is 6 exactly when some non-null value moves by more than `1e-6` under
rounding to two decimals, else 2; a column of integers gets 2 and a column
containing `0.123456` gets 6. -/
theorem c2_auto_decimals (cells : List Cell) (h : is_numeric cells = true) :
    (chosenDecimals .auto cells =
      if (numsOf cells).any
          (fun x => decide ((1/1000000 : ℚ) < |x - pyRound2 x|)) then 6 else 2) ∧
    ((∀ q ∈ numsOf cells, q.den = 1) → chosenDecimals .auto cells = 2) ∧
    ((123456/1000000 : ℚ) ∈ numsOf cells → chosenDecimals .auto cells = 6) := by
  refine ⟨by simp [chosenDecimals, needs_six_decimals, h], ?_, ?_⟩
  · intro hall
    have hns : needs_six_decimals cells = false := by
      unfold needs_six_decimals
      rw [if_pos h, List.any_eq_false]
      intro x hx
      rw [decide_eq_true_iff, pyRound2_of_den_one x (hall x hx), sub_self,
        abs_zero]
      norm_num
    simp [chosenDecimals, hns]
  · intro hmem
    have key : (1/1000000 : ℚ) <
        |(123456/1000000 : ℚ) - pyRound2 (123456/1000000)| := by
      have h1 : (123456/1000000 : ℚ) - pyRound2 (123456/1000000) = 54/15625 := by
        norm_num [pyRound2, roundHalfEven]
      rw [h1, abs_of_nonneg (by norm_num : (0:ℚ) ≤ 54/15625)]
      norm_num
    have hns : needs_six_decimals cells = true := by
      unfold needs_six_decimals
      rw [if_pos h, List.any_eq_true]
      exact ⟨_, hmem, by rw [decide_eq_true_iff]; exact key⟩
    simp [chosenDecimals, hns]

/-- Witness for C2: the column `[3, 0.123456]` is numeric and Auto picks
6 decimals; the integer column `[3, 4]` is numeric and Auto picks 2. -/
theorem c2_auto_decimals_witness :
    is_numeric [Cell.num 3, Cell.num (123456/1000000)] = true ∧
    chosenDecimals .auto [Cell.num 3, Cell.num (123456/1000000)] = 6 ∧
    chosenDecimals .auto [Cell.num 3, Cell.num 4] = 2 := by
  refine ⟨by decide, ?_, ?_⟩
  · exact (c2_auto_decimals [Cell.num 3, Cell.num (123456/1000000)]
      (by decide)).2.2 (by simp [numsOf])
  · exact (c2_auto_decimals [Cell.num 3, Cell.num 4] (by decide)).2.1
      (by decide)

/-! ### Evaluation helpers for the fixed-decimal renderer -/

theorem roundHalfEven_natCast (m : ℕ) : roundHalfEven (m : ℚ) = m := by
  have h : ((m : ℕ) : ℚ) = ((m : ℤ) : ℚ) := by push_cast; ring
  rw [h, roundHalfEven_intCast]

theorem formatFixed_eval (d : Nat) (q : ℚ) (m : ℕ)
    (h1 : |q| * (10 ^ d : ℚ) = (m : ℚ)) (h2 : ¬ q < 0) :
    formatFixed d q =
      (if d = 0 then toString (m : ℕ)
       else toString (m / 10 ^ d) ++ "." ++ padZeros d (toString (m % 10 ^ d))) := by
  simp only [formatFixed]
  rw [h1, roundHalfEven_natCast, if_neg h2, Int.toNat_natCast]

theorem floatStr_one : floatStr 1 = "1.0" := by
  have hm : max 1 (minDecFuel 60 1) = 1 := by decide
  unfold floatStr
  rw [hm, formatFixed_eval 1 1 10 (by norm_num) (by norm_num)]
  decide

/-- Claim C3 is about the code's intent, not its behaviour: the format loop
is meant to decide numeric-ness on the raw (pre-display) column, and its
helpers anticipate nulls inside numeric columns (`format_series` renders a
null as `""` and `needs_six_decimals` calls `dropna`), but line 137
overwrites `raw_df` with `safe_display(...)` before the loop runs.  On a
sheet with the single column `A = [1.0, NaN]`: the pre-display column is
numeric, yet the display-blanked column the loop inspects is not (the NaN
became `""`), so the column is rendered via `astype(str)` as
`["1.0", ""]` instead of `["1.00", ""]`; the per-sheet insights then see no
numeric column while the consolidated loop (which does not blank) counts
one. -/
theorem c3_display_blanking_defeats_numeric_detection :
    is_numeric
      ((sanitize_columns [⟨Label.strL "A", [Cell.num 1, Cell.empty]⟩]).cols.getD 0
        ⟨"", []⟩).cells = true ∧
    is_numeric
      ((load_display [⟨Label.strL "A", [Cell.num 1, Cell.empty]⟩]).cols.getD 0
        ⟨"", []⟩).cells = false ∧
    format_df (fun _ => DecSetting.auto)
        (load_display [⟨Label.strL "A", [Cell.num 1, Cell.empty]⟩]) =
      some ⟨[⟨"A", [Cell.str "1.0", Cell.str ""]⟩]⟩ ∧
    (executive_insights
        (load_display [⟨Label.strL "A", [Cell.num 1, Cell.empty]⟩])).numeric = none ∧
    (consolidated_step init_cstate
        [⟨Label.strL "A", [Cell.num 1, Cell.empty]⟩]).total_numeric_cols = 1 := by
  refine ⟨by decide, by decide, ?_, by decide, by decide⟩
  have hld : load_display [⟨Label.strL "A", [Cell.num 1, Cell.empty]⟩] =
      ⟨[⟨"A", [Cell.num 1, Cell.str ""]⟩]⟩ := by decide
  have hn : is_numeric [Cell.num 1, Cell.str ""] = false := by decide
  rw [hld]
  simp [format_df, format_cols, format_col, hn, astype_str, pyStr, floatStr_one]

/-! ### Helper lemmas on skipna aggregation -/

def omax : Option ℚ → Option ℚ → Option ℚ
  | none, b => b
  | some x, none => some x
  | some x, some y => some (max x y)

def omin : Option ℚ → Option ℚ → Option ℚ
  | none, b => b
  | some x, none => some x
  | some x, some y => some (min x y)

theorem list_max?_cons (x : ℚ) (xs : List ℚ) :
    list_max? (x :: xs) = omax (some x) (list_max? xs) := by
  cases h : list_max? xs <;> simp [list_max?, omax, h]

theorem list_min?_cons (x : ℚ) (xs : List ℚ) :
    list_min? (x :: xs) = omin (some x) (list_min? xs) := by
  cases h : list_min? xs <;> simp [list_min?, omin, h]

theorem omax_assoc (a b c : Option ℚ) : omax (omax a b) c = omax a (omax b c) := by
  cases a <;> cases b <;> cases c <;> simp [omax, max_assoc]

theorem omin_assoc (a b c : Option ℚ) : omin (omin a b) c = omin a (omin b c) := by
  cases a <;> cases b <;> cases c <;> simp [omin, min_assoc]

theorem list_max?_append (xs ys : List ℚ) :
    list_max? (xs ++ ys) = omax (list_max? xs) (list_max? ys) := by
  induction xs with
  | nil => simp [list_max?, omax]
  | cons x xs ih => simp [List.cons_append, list_max?_cons, ih, omax_assoc]

theorem list_min?_append (xs ys : List ℚ) :
    list_min? (xs ++ ys) = omin (list_min? xs) (list_min? ys) := by
  induction xs with
  | nil => simp [list_min?, omin]
  | cons x xs ih => simp [List.cons_append, list_min?_cons, ih, omin_assoc]

theorem df_max_flat (cols : List Col) :
    list_max? ((cols.map (fun c => numsOf c.cells)).flatten) =
      list_max? (cols.filterMap (fun c => col_max? c.cells)) := by
  induction cols with
  | nil => rfl
  | cons c cs ih =>
    simp only [List.map_cons, List.flatten_cons, List.filterMap_cons,
      list_max?_append, ih, col_max?]
    cases h : list_max? (numsOf c.cells) <;> simp [h, omax, list_max?_cons]

theorem df_min_flat (cols : List Col) :
    list_min? ((cols.map (fun c => numsOf c.cells)).flatten) =
      list_min? (cols.filterMap (fun c => col_min? c.cells)) := by
  induction cols with
  | nil => rfl
  | cons c cs ih =>
    simp only [List.map_cons, List.flatten_cons, List.filterMap_cons,
      list_min?_append, ih, col_min?]
    cases h : list_min? (numsOf c.cells) <;> simp [h, omin, list_min?_cons]

theorem flat_nums_sum (df : DF) : (flat_nums df).sum = df_sum_sum df := by
  rw [flat_nums, List.sum_flatten, List.map_map, df_sum_sum]
  rfl

theorem flat_nums_max (df : DF) : list_max? (flat_nums df) = df_max_max? df :=
  df_max_flat df.cols

theorem flat_nums_min (df : DF) : list_min? (flat_nums df) = df_min_min? df :=
  df_min_flat df.cols

/-- Claim C4: for a worksheet whose numeric selection is non-empty, the
Executive Insights panel reports the row count (table length), the count of
numeric-dtype columns, and sum/max/min over the flattened union of all
numeric columns' non-null values, each rounded to two decimals. -/
theorem c4_sheet_insights (df : DF) (h : (select_numeric df).isEmpty = false) :
    (executive_insights df).rows = df.nrow ∧
    (executive_insights df).cols = df.ncol ∧
    (executive_insights df).numeric = some
      { ncols := (select_numeric df).ncol,
        total := pyRound2 (flat_nums (select_numeric df)).sum,
        maxV := (list_max? (flat_nums (select_numeric df))).map pyRound2,
        minV := (list_min? (flat_nums (select_numeric df))).map pyRound2 } := by
  refine ⟨rfl, rfl, ?_⟩
  simp only [executive_insights]
  rw [if_neg (by simp [h]), flat_nums_sum, flat_nums_max, flat_nums_min]

/-- Witness for C4: a sheet with one numeric column `[3]` reports one
numeric column, total 3, maximum 3 and minimum 3. -/
theorem c4_sheet_insights_witness :
    (select_numeric ⟨[⟨"A", [Cell.num 3]⟩]⟩).isEmpty = false ∧
    (executive_insights ⟨[⟨"A", [Cell.num 3]⟩]⟩).numeric =
      some { ncols := 1, total := 3, maxV := some 3, minV := some 3 } := by
  refine ⟨by decide, ?_⟩
  rw [(c4_sheet_insights ⟨[⟨"A", [Cell.num 3]⟩]⟩ (by decide)).2.2]
  have h3 : pyRound2 3 = 3 := pyRound2_of_den_one 3 (by decide)
  simp [flat_nums, select_numeric, numsOf, is_numeric, cellNotStr, list_max?,
    list_min?, h3, DF.ncol]

/-- Claim C6: a worksheet with zero numeric-dtype columns takes the
informational "no numeric data" branch of the insights (no aggregate is
evaluated over the empty numeric selection, and the model is total, so
nothing is raised); the row count is still reported. -/
theorem c6_no_numeric_data_branch (df : DF) (h : (select_numeric df).ncol = 0) :
    (executive_insights df).numeric = none ∧
    (executive_insights df).rows = df.nrow := by
  refine ⟨?_, rfl⟩
  have hempty : (select_numeric df).isEmpty = true := by
    simp [DF.isEmpty, h]
  simp only [executive_insights]
  rw [if_pos (by simp [hempty])]

/-- Witness for C6: a sheet with a single text column reports no numeric
data and one row. -/
theorem c6_no_numeric_data_branch_witness :
    (executive_insights ⟨[⟨"A", [Cell.str "x"]⟩]⟩).numeric = none ∧
    (executive_insights ⟨[⟨"A", [Cell.str "x"]⟩]⟩).rows = 1 :=
  ⟨(c6_no_numeric_data_branch ⟨[⟨"A", [Cell.str "x"]⟩]⟩ (by decide)).1,
   (c6_no_numeric_data_branch ⟨[⟨"A", [Cell.str "x"]⟩]⟩ (by decide)).2⟩

/-! ### Helper lemmas on the consolidated loop -/

/-- A sheet's row count after sanitization. -/
def sheet_nrow (sh : List RawCol) : Nat := (sanitize_columns sh).nrow

/-- A sheet's numeric-column count. -/
def sheet_numcols (sh : List RawCol) : Nat :=
  (select_numeric (sanitize_columns sh)).ncol

/-- A sheet's numeric total. -/
def sheet_numsum (sh : List RawCol) : ℚ :=
  df_sum_sum (select_numeric (sanitize_columns sh))

theorem numsOf_map_num (a : List ℚ) : numsOf (a.map Cell.num) = a := by
  induction a with
  | nil => rfl
  | cons x xs ih => simpa [numsOf, List.filterMap_cons] using ih

theorem consolidated_step_rows (s : CState) (sh : List RawCol) :
    (consolidated_step s sh).total_rows = s.total_rows + sheet_nrow sh := by
  simp only [consolidated_step]
  split <;> rfl

theorem consolidated_step_numcols (s : CState) (sh : List RawCol) :
    (consolidated_step s sh).total_numeric_cols =
      s.total_numeric_cols + sheet_numcols sh := by
  simp only [consolidated_step]
  split <;> rfl

theorem df_sum_sum_zero_of_isEmpty (df : DF) (hrect : Rect df)
    (h : (select_numeric df).isEmpty = true) :
    df_sum_sum (select_numeric df) = 0 := by
  rw [DF.isEmpty, Bool.or_eq_true, beq_iff_eq, beq_iff_eq] at h
  rcases h with h | h
  · cases hc : (select_numeric df).cols with
    | nil => simp [df_sum_sum, hc]
    | cons c cs =>
      have hcmem : c ∈ df.cols := by
        have hm : c ∈ df.cols.filter (fun x => is_numeric x.cells) := by
          have hm0 : c ∈ (select_numeric df).cols := by
            rw [hc]; exact List.mem_cons_self _ _
          simpa [select_numeric] using hm0
        exact (List.mem_filter.1 hm).1
      have hnr0 : df.nrow = 0 := by
        have h2 : (select_numeric df).nrow = c.cells.length := by rw [DF.nrow, hc]
        rw [← hrect c hcmem, ← h2, h]
      rw [df_sum_sum]
      apply List.sum_eq_zero
      intro x hx
      rw [List.mem_map] at hx
      obtain ⟨c2, hc2, rfl⟩ := hx
      have hc2mem : c2 ∈ df.cols := by
        have hm2 : c2 ∈ df.cols.filter (fun x => is_numeric x.cells) := by
          simpa [select_numeric] using hc2
        exact (List.mem_filter.1 hm2).1
      have hlen0 : c2.cells.length = 0 := by rw [hrect c2 hc2mem, hnr0]
      have hnil : c2.cells = [] := List.length_eq_zero.1 hlen0
      simp [col_sum, numsOf, hnil]
  · have hnil : (select_numeric df).cols = [] := List.length_eq_zero.1 h
    simp [df_sum_sum, hnil]

theorem consolidated_step_sum (s : CState) (sh : List RawCol)
    (hrect : Rect (sanitize_columns sh)) :
    (consolidated_step s sh).global_sum = s.global_sum + sheet_numsum sh := by
  cases hemp : (select_numeric (sanitize_columns sh)).isEmpty with
  | false => simp [consolidated_step, hemp, sheet_numsum]
  | true =>
    have hz : sheet_numsum sh = 0 :=
      df_sum_sum_zero_of_isEmpty (sanitize_columns sh) hrect hemp
    simp [consolidated_step, hemp, hz]

theorem foldl_consolidated_rows (shs : List (List RawCol)) :
    ∀ s : CState, (shs.foldl consolidated_step s).total_rows =
      s.total_rows + (shs.map sheet_nrow).sum := by
  induction shs with
  | nil => intro s; simp
  | cons sh shs ih =>
    intro s
    simp only [List.foldl_cons, List.map_cons, List.sum_cons]
    rw [ih, consolidated_step_rows]
    omega

theorem foldl_consolidated_numcols (shs : List (List RawCol)) :
    ∀ s : CState, (shs.foldl consolidated_step s).total_numeric_cols =
      s.total_numeric_cols + (shs.map sheet_numcols).sum := by
  induction shs with
  | nil => intro s; simp
  | cons sh shs ih =>
    intro s
    simp only [List.foldl_cons, List.map_cons, List.sum_cons]
    rw [ih, consolidated_step_numcols]
    omega

theorem foldl_consolidated_sum (shs : List (List RawCol)) :
    ∀ s : CState, (∀ sh ∈ shs, Rect (sanitize_columns sh)) →
      (shs.foldl consolidated_step s).global_sum =
        s.global_sum + (shs.map sheet_numsum).sum := by
  induction shs with
  | nil => intro s _; simp
  | cons sh shs ih =>
    intro s hr
    simp only [List.foldl_cons, List.map_cons, List.sum_cons]
    rw [ih _ (fun x hx => hr x (List.mem_cons_of_mem _ hx)),
      consolidated_step_sum _ _ (hr sh (List.mem_cons_self _ _))]
    ring

theorem files_consolidated_rows (files : List (List (List RawCol))) :
    ∀ s : CState,
      (files.foldl (fun s wb => wb.foldl consolidated_step s) s).total_rows =
        s.total_rows + (files.map (fun wb => (wb.map sheet_nrow).sum)).sum := by
  induction files with
  | nil => intro s; simp
  | cons wb fs ih =>
    intro s
    simp only [List.foldl_cons, List.map_cons, List.sum_cons]
    rw [ih, foldl_consolidated_rows]
    omega

theorem files_consolidated_numcols (files : List (List (List RawCol))) :
    ∀ s : CState,
      (files.foldl (fun s wb => wb.foldl consolidated_step s) s).total_numeric_cols =
        s.total_numeric_cols + (files.map (fun wb => (wb.map sheet_numcols).sum)).sum := by
  induction files with
  | nil => intro s; simp
  | cons wb fs ih =>
    intro s
    simp only [List.foldl_cons, List.map_cons, List.sum_cons]
    rw [ih, foldl_consolidated_numcols]
    omega

theorem files_consolidated_sum (files : List (List (List RawCol))) :
    ∀ s : CState, (∀ wb ∈ files, ∀ sh ∈ wb, Rect (sanitize_columns sh)) →
      (files.foldl (fun s wb => wb.foldl consolidated_step s) s).global_sum =
        s.global_sum + (files.map (fun wb => (wb.map sheet_numsum).sum)).sum := by
  induction files with
  | nil => intro s _; simp
  | cons wb fs ih =>
    intro s hr
    simp only [List.foldl_cons, List.map_cons, List.sum_cons]
    rw [ih _ (fun x hx => hr x (List.mem_cons_of_mem _ hx)),
      foldl_consolidated_sum _ _ (hr wb (List.mem_cons_self _ _))]
    ring

theorem consolidated_step_single (s : CState) (nm : String) (a : List ℚ)
    (ha : a ≠ []) :
    consolidated_step s [⟨Label.strL nm, a.map Cell.num⟩] =
      { total_rows := s.total_rows + a.length,
        total_numeric_cols := s.total_numeric_cols + 1,
        global_sum := s.global_sum + a.sum,
        global_max := gmax_update s.global_max (list_max? a) } := by
  have hnum : is_numeric (a.map Cell.num) = true := by
    simp [is_numeric, List.all_map, Function.comp, cellNotStr]
  have hsel : select_numeric ⟨[⟨nm, a.map Cell.num⟩]⟩ =
      ⟨[⟨nm, a.map Cell.num⟩]⟩ := by
    simp [select_numeric, hnum]
  have hlen : a.length ≠ 0 := fun hh => ha (List.length_eq_zero.1 hh)
  have hemp : (DF.mk [⟨nm, a.map Cell.num⟩]).isEmpty = false := by
    simp [DF.isEmpty, DF.nrow, DF.ncol, hlen]
  have hmax : df_max_max? ⟨[⟨nm, a.map Cell.num⟩]⟩ = list_max? a := by
    cases h : list_max? a with
    | none => simp [df_max_max?, col_max?, numsOf_map_num, h, list_max?]
    | some m => simp [df_max_max?, col_max?, numsOf_map_num, h, list_max?]
  have hsan : sanitize_columns [⟨Label.strL nm, a.map Cell.num⟩] =
      ⟨[⟨nm, a.map Cell.num⟩]⟩ := rfl
  simp only [consolidated_step, hsan, hsel, hemp, hmax, Bool.false_eq_true,
    if_false]
  simp [DF.nrow, DF.ncol, df_sum_sum, col_sum, numsOf_map_num]

theorem gmax_update_some_some (x y : ℚ) :
    gmax_update (some (some x)) (some y) = some (some (max x y)) := by
  by_cases h : x < y
  · simp [gmax_update, py_gt, h, max_eq_right h.le]
  · simp [gmax_update, py_gt, h, max_eq_left (not_lt.1 h)]

/-- Claim C5: the consolidated loop visits every sheet of every uploaded
file and accumulates the total row count as the sum of sheet lengths, the
total numeric-column count as the sum of per-sheet counts, and the global
sum as the sum of the sheets' numeric totals; the global maximum is kept
by running comparison, so that for two workbooks whose single numeric
columns sum to 100 and 50 the global sum is 150 and the global maximum is
the larger of the two sheets' maxima. -/
theorem c5_consolidated (files : List (List (List RawCol)))
    (hrect : ∀ wb ∈ files, ∀ sh ∈ wb, Rect (sanitize_columns sh)) :
    (consolidated files).total_rows =
      (files.map (fun wb => (wb.map sheet_nrow).sum)).sum ∧
    (consolidated files).total_numeric_cols =
      (files.map (fun wb => (wb.map sheet_numcols).sum)).sum ∧
    (consolidated files).global_sum =
      (files.map (fun wb => (wb.map sheet_numsum).sum)).sum ∧
    (∀ (a b : List ℚ) (ma mb : ℚ), a ≠ [] → b ≠ [] →
      a.sum = 100 → b.sum = 50 →
      list_max? a = some ma → list_max? b = some mb →
      (consolidated [[[⟨Label.strL "A", a.map Cell.num⟩]],
          [[⟨Label.strL "B", b.map Cell.num⟩]]]).global_sum = 150 ∧
      (consolidated [[[⟨Label.strL "A", a.map Cell.num⟩]],
          [[⟨Label.strL "B", b.map Cell.num⟩]]]).global_max =
        some (some (max ma mb))) := by
  refine ⟨?_, ?_, ?_, ?_⟩
  · rw [consolidated, files_consolidated_rows]
    show 0 + _ = _
    omega
  · rw [consolidated, files_consolidated_numcols]
    show 0 + _ = _
    omega
  · rw [consolidated, files_consolidated_sum files init_cstate hrect]
    show (0 : ℚ) + _ = _
    rw [zero_add]
  · intro a b ma mb ha hb hsa hsb hma hmb
    have h1 : consolidated [[[⟨Label.strL "A", a.map Cell.num⟩]],
        [[⟨Label.strL "B", b.map Cell.num⟩]]] =
        consolidated_step (consolidated_step init_cstate
          [⟨Label.strL "A", a.map Cell.num⟩]) [⟨Label.strL "B", b.map Cell.num⟩] :=
      rfl
    rw [h1, consolidated_step_single init_cstate "A" a ha,
      consolidated_step_single _ "B" b hb]
    constructor
    · show (0 : ℚ) + a.sum + b.sum = 150
      rw [hsa, hsb]
      norm_num
    · show gmax_update (gmax_update none (list_max? a)) (list_max? b) =
        some (some (max ma mb))
      rw [hma, hmb]
      show gmax_update (some (some ma)) (some mb) = some (some (max ma mb))
      exact gmax_update_some_some ma mb

/-- Witness for C5: workbooks with single numeric columns `[100]` and
`[50]` give global sum 150 and global maximum 100. -/
theorem c5_consolidated_witness :
    (consolidated [[[⟨Label.strL "A", [Cell.num 100]⟩]],
        [[⟨Label.strL "B", [Cell.num 50]⟩]]]).global_sum = 150 ∧
    (consolidated [[[⟨Label.strL "A", [Cell.num 100]⟩]],
        [[⟨Label.strL "B", [Cell.num 50]⟩]]]).global_max =
      some (some (100 : ℚ)) := by
  have h := (c5_consolidated [] (by simp)).2.2.2 [100] [50] 100 50
    (by simp) (by simp) (by simp) (by simp) rfl rfl
  exact ⟨h.1, h.2.trans (by rw [max_eq_left (by decide : (50 : ℚ) ≤ 100)])⟩

/-! ### Claim C10: degradation when no numeric data exists anywhere -/

theorem consolidated_step_preserves (s : CState) (sh : List RawCol)
    (h : (select_numeric (sanitize_columns sh)).ncol = 0) :
    (consolidated_step s sh).global_sum = s.global_sum ∧
    (consolidated_step s sh).global_max = s.global_max := by
  have hemp : (select_numeric (sanitize_columns sh)).isEmpty = true := by
    simp [DF.isEmpty, h]
  simp [consolidated_step, hemp]

theorem foldl_consolidated_preserves (shs : List (List RawCol)) :
    ∀ s : CState, (∀ sh ∈ shs, (select_numeric (sanitize_columns sh)).ncol = 0) →
      (shs.foldl consolidated_step s).global_sum = s.global_sum ∧
      (shs.foldl consolidated_step s).global_max = s.global_max := by
  induction shs with
  | nil => intro s _; exact ⟨rfl, rfl⟩
  | cons sh shs ih =>
    intro s hr
    simp only [List.foldl_cons]
    have hstep := consolidated_step_preserves s sh (hr sh (List.mem_cons_self _ _))
    have hrest := ih (consolidated_step s sh)
      (fun x hx => hr x (List.mem_cons_of_mem _ hx))
    exact ⟨hrest.1.trans hstep.1, hrest.2.trans hstep.2⟩

theorem files_consolidated_preserves (files : List (List (List RawCol))) :
    ∀ s : CState,
      (∀ wb ∈ files, ∀ sh ∈ wb, (select_numeric (sanitize_columns sh)).ncol = 0) →
      (files.foldl (fun s wb => wb.foldl consolidated_step s) s).global_sum =
        s.global_sum ∧
      (files.foldl (fun s wb => wb.foldl consolidated_step s) s).global_max =
        s.global_max := by
  induction files with
  | nil => intro s _; exact ⟨rfl, rfl⟩
  | cons wb fs ih =>
    intro s hr
    simp only [List.foldl_cons]
    have hstep := foldl_consolidated_preserves wb s (hr wb (List.mem_cons_self _ _))
    have hrest := ih (wb.foldl consolidated_step s)
      (fun x hx => hr x (List.mem_cons_of_mem _ hx))
    exact ⟨hrest.1.trans hstep.1, hrest.2.trans hstep.2⟩

/-- Claim C10 counterexample: a single uploaded file whose single sheet has
one column `A = [NaN]`.  No numeric value exists anywhere, yet the column's
dtype is numeric (an all-missing column is float), so the loop enters the
non-empty branch: `global_sum` gains `0` and `global_max` is set to the NaN
`max_val` (`some none`), which is not Python `None` — the final report
therefore takes the success branch (printing `nan`) instead of the
informational "no numeric values" message. -/
theorem c10_counterexample :
    ([(⟨Label.strL "A", [Cell.empty]⟩ : RawCol)].all
      (fun rc => rc.cells.all (fun c => cellNotStr c)) = true) ∧
    (consolidated [[[⟨Label.strL "A", [Cell.empty]⟩]]]).global_sum = 0 ∧
    (consolidated [[[⟨Label.strL "A", [Cell.empty]⟩]]]).global_max = some none ∧
    (consolidated [[[⟨Label.strL "A", [Cell.empty]⟩]]]).global_max ≠ none := by
  refine ⟨by decide, ?_, by decide, by decide⟩
  have h1 : consolidated [[[⟨Label.strL "A", [Cell.empty]⟩]]] =
      consolidated_step init_cstate [⟨Label.strL "A", [Cell.empty]⟩] := rfl
  rw [h1]
  simp [consolidated_step, DF.isEmpty, DF.nrow, DF.ncol, df_sum_sum, col_sum,
    numsOf, select_numeric, sanitize_columns, sanitizeColsFrom, is_numeric,
    cellNotStr, init_cstate]

/-- Claim C10 (amended): when no sheet of any uploaded file has a
numeric-dtype column, the consolidated insights still report the global
numeric sum as 0 (the accumulator starts at 0 and is never added to, and
`round(0, 2) = 0`), while the global maximum stays Python `None` and only
it falls back to the informational "no numeric values" message; a sheet
with a numeric-dtype column containing no non-null values instead sets the
maximum to NaN (see the counterexample). -/
theorem c10_sum_and_max_degrade (files : List (List (List RawCol)))
    (h : ∀ wb ∈ files, ∀ sh ∈ wb, (select_numeric (sanitize_columns sh)).ncol = 0) :
    (consolidated files).global_sum = 0 ∧
    pyRound2 (consolidated files).global_sum = 0 ∧
    (consolidated files).global_max = none := by
  have hp := files_consolidated_preserves files init_cstate h
  refine ⟨hp.1, ?_, hp.2⟩
  have h0 : (consolidated files).global_sum = 0 := hp.1
  rw [h0]
  exact pyRound2_of_den_one 0 (by decide)

/-- Witness for C10: one file with one all-text sheet reports global sum 0
and a `None` global maximum. -/
theorem c10_sum_and_max_degrade_witness :
    (consolidated [[[⟨Label.strL "A", [Cell.str "x"]⟩]]]).global_sum = 0 ∧
    (consolidated [[[⟨Label.strL "A", [Cell.str "x"]⟩]]]).global_max = none := by
  have h := c10_sum_and_max_degrade [[[⟨Label.strL "A", [Cell.str "x"]⟩]]]
    (by decide)
  exact ⟨h.1, h.2.2⟩

/-- Claim C7: the exported text document is a title line, a sheet-name
line, a blank line, the pipe-joined header line, a 120-dash rule, and then
one pipe-joined line per row of the formatted table, joining all column
values positionally; the download is offered as
`{sheet_name}_Executive_View.pdf`, and the straight-line export action
removes the temporary file after offering the download. -/
theorem c7_pdf_export (file_name sheet_name : String) (fdf : DF) (i : Nat)
    (hi : i < fdf.nrow) :
    (pdf_text_lines file_name sheet_name fdf).length = fdf.nrow + 5 ∧
    (pdf_text_lines file_name sheet_name fdf).getD 0 "" =
      "Executive View – " ++ file_name ∧
    (pdf_text_lines file_name sheet_name fdf).getD 1 "" =
      "Sheet: " ++ sheet_name ∧
    (pdf_text_lines file_name sheet_name fdf).getD 2 "" = "" ∧
    (pdf_text_lines file_name sheet_name fdf).getD 3 "" =
      String.intercalate " | " (fdf.cols.map (fun c => c.name)) ∧
    ((pdf_text_lines file_name sheet_name fdf).getD 4 "").length = 120 ∧
    (∀ ch ∈ ((pdf_text_lines file_name sheet_name fdf).getD 4 "").data,
      ch = '-') ∧
    (pdf_text_lines file_name sheet_name fdf).getD (5 + i) "" =
      String.intercalate " | " ((df_row fdf i).map pyStr) ∧
    pdf_file_name sheet_name = sheet_name ++ "_Executive_View.pdf" ∧
    pdf_export_events =
      [.allocTemp, .writeDoc, .offerDownload, .removeTemp] := by
  refine ⟨?_, rfl, rfl, rfl, rfl, ?_, ?_, ?_, rfl, rfl⟩
  · simp [pdf_text_lines]
  · show (String.mk (List.replicate 120 '-')).length = 120
    decide
  · intro ch hch
    exact List.eq_of_mem_replicate
      (show ch ∈ List.replicate 120 '-' from hch)
  · rw [show 5 + i = i + 1 + 1 + 1 + 1 + 1 by omega]
    simp only [pdf_text_lines, List.getD_cons_succ]
    rw [List.getD_eq_getElem?_getD, List.getElem?_map, List.getElem?_range hi]
    rfl

/-- Witness for C7: a one-row, two-column formatted table produces the
body line `1.00 | x` at position 5 and is offered as
`Sheet1_Executive_View.pdf`. -/
theorem c7_pdf_export_witness :
    0 < (DF.mk [⟨"A", [Cell.str "1.00"]⟩, ⟨"B", [Cell.str "x"]⟩]).nrow ∧
    (pdf_text_lines "book.xlsx" "Sheet1"
      ⟨[⟨"A", [Cell.str "1.00"]⟩, ⟨"B", [Cell.str "x"]⟩]⟩).getD 5 "" =
      "1.00 | x" ∧
    pdf_file_name "Sheet1" = "Sheet1_Executive_View.pdf" := by
  have h := c7_pdf_export "book.xlsx" "Sheet1"
    ⟨[⟨"A", [Cell.str "1.00"]⟩, ⟨"B", [Cell.str "x"]⟩]⟩ 0 (by decide)
  exact ⟨by decide, (h.2.2.2.2.2.2.2.1).trans (by decide), h.2.2.2.2.2.2.2.2.1⟩

/-- Claim C8: the formatter's stringification is idempotent on a
non-numeric column whose cells are already display-safe strings —
re-applying `astype(str)` yields the same cells, and the format loop
returns the column unchanged. -/
theorem c8_stringify_idempotent (ds : DecSetting) (cells : List Cell)
    (h : ∀ x ∈ cells, ∃ s0, x = Cell.str s0) :
    astype_str cells = cells ∧ format_col ds cells = some cells := by
  have hast : astype_str cells = cells := by
    induction cells with
    | nil => rfl
    | cons c cs ih =>
      obtain ⟨s0, rfl⟩ := h c (List.mem_cons_self _ _)
      have hcs := ih (fun x hx => h x (List.mem_cons_of_mem _ hx))
      simpa [astype_str, pyStr] using hcs
  refine ⟨hast, ?_⟩
  cases cells with
  | nil =>
    rw [format_col, if_pos (by decide : is_numeric [] = true)]
    rfl
  | cons c cs =>
    obtain ⟨s0, rfl⟩ := h c (List.mem_cons_self _ _)
    have hn : is_numeric (Cell.str s0 :: cs) = false := by
      simp [is_numeric, cellNotStr]
    rw [format_col, if_neg (by simp [hn]), hast]

/-- Witness for C8: the already-formatted column `["a", ""]` is unchanged
by re-stringification and by the format loop. -/
theorem c8_stringify_idempotent_witness :
    astype_str [Cell.str "a", Cell.str ""] = [Cell.str "a", Cell.str ""] ∧
    format_col DecSetting.auto [Cell.str "a", Cell.str ""] =
      some [Cell.str "a", Cell.str ""] := by
  exact c8_stringify_idempotent DecSetting.auto [Cell.str "a", Cell.str ""]
    (by
      intro x hx
      rcases List.mem_cons.1 hx with rfl | hx2
      · exact ⟨"a", rfl⟩
      · rcases List.mem_cons.1 hx2 with rfl | hx3
        · exact ⟨"", rfl⟩
        · cases hx3)

/-! ### Shape lemmas for the formatting pass -/

theorem format_series_spec (d : Nat) (cells out : List Cell)
    (h : format_series d cells = some out) :
    out.length = cells.length ∧ ∀ x ∈ out, ∃ s0, x = Cell.str s0 := by
  induction cells generalizing out with
  | nil =>
    simp only [format_series, Option.some.injEq] at h
    subst h
    simp
  | cons c cs ih =>
    cases c with
    | empty =>
      simp only [format_series, Option.map_eq_some'] at h
      obtain ⟨r, hr, rfl⟩ := h
      have hs := ih r hr
      refine ⟨by simp [hs.1], ?_⟩
      intro x hx
      rcases List.mem_cons.1 hx with rfl | hx2
      · exact ⟨"", rfl⟩
      · exact hs.2 x hx2
    | num q =>
      simp only [format_series, Option.map_eq_some'] at h
      obtain ⟨r, hr, rfl⟩ := h
      have hs := ih r hr
      refine ⟨by simp [hs.1], ?_⟩
      intro x hx
      rcases List.mem_cons.1 hx with rfl | hx2
      · exact ⟨formatFixed d q, rfl⟩
      · exact hs.2 x hx2
    | str s0 => simp [format_series] at h

theorem format_col_spec (ds : DecSetting) (cells out : List Cell)
    (h : format_col ds cells = some out) :
    out.length = cells.length ∧ ∀ x ∈ out, ∃ s0, x = Cell.str s0 := by
  rw [format_col] at h
  by_cases hn : is_numeric cells = true
  · rw [if_pos hn] at h
    exact format_series_spec _ _ _ h
  · rw [if_neg hn] at h
    have h2 := Option.some.inj h
    subst h2
    refine ⟨by simp [astype_str], ?_⟩
    intro x hx
    rw [astype_str, List.mem_map] at hx
    obtain ⟨c, _, rfl⟩ := hx
    exact ⟨pyStr c, rfl⟩

theorem format_cols_spec (settings : String → DecSetting)
    (cols fcols : List Col) (h : format_cols settings cols = some fcols) :
    fcols.map (fun c => c.name) = cols.map (fun c => c.name) ∧
    fcols.map (fun c => c.cells.length) = cols.map (fun c => c.cells.length) ∧
    ∀ c ∈ fcols, ∀ x ∈ c.cells, ∃ s0, x = Cell.str s0 := by
  induction cols generalizing fcols with
  | nil =>
    simp only [format_cols, Option.some.injEq] at h
    subst h
    simp
  | cons c cs ih =>
    rw [format_cols] at h
    cases hc : format_col (settings c.name) c.cells with
    | none => rw [hc] at h; cases h
    | some out =>
      cases hcs : format_cols settings cs with
      | none => rw [hc, hcs] at h; cases h
      | some rest =>
        rw [hc, hcs] at h
        have h2 := Option.some.inj h
        subst h2
        have hcol := format_col_spec _ _ _ hc
        have hrest := ih rest hcs
        refine ⟨by simp [hrest.1], by simp [hcol.1, hrest.2.1], ?_⟩
        intro c2 hc2 x hx
        rcases List.mem_cons.1 hc2 with rfl | hc3
        · exact hcol.2 x hx
        · exact hrest.2.2 c2 hc3 x hx

/-- Claim C9: the formatting pass preserves the table's column count, row
count, column names and column order (as well as every column's length),
and every cell of the formatted table is a string. -/
theorem c9_format_preserves_shape (df : DF) (settings : String → DecSetting)
    (fdf : DF) (h : format_df settings df = some fdf) :
    fdf.ncol = df.ncol ∧
    fdf.nrow = df.nrow ∧
    fdf.cols.map (fun c => c.name) = df.cols.map (fun c => c.name) ∧
    fdf.cols.map (fun c => c.cells.length) =
      df.cols.map (fun c => c.cells.length) ∧
    ∀ c ∈ fdf.cols, ∀ x ∈ c.cells, ∃ s0, x = Cell.str s0 := by
  rw [format_df] at h
  cases hc : format_cols settings df.cols with
  | none => rw [hc] at h; cases h
  | some fcols =>
    rw [hc] at h
    have h2 := Option.some.inj h
    subst h2
    have hs := format_cols_spec settings df.cols fcols hc
    refine ⟨?_, ?_, hs.1, hs.2.1, hs.2.2⟩
    · have hl := congrArg List.length hs.1
      simpa [DF.ncol] using hl
    · cases hdc : df.cols with
      | nil =>
        have hl := congrArg List.length hs.1
        rw [hdc] at hl
        have : fcols = [] := by
          apply List.length_eq_zero.1
          simpa using hl
        simp [DF.nrow, this, hdc]
      | cons c cs =>
        cases hfc : fcols with
        | nil =>
          exfalso
          have hl := congrArg List.length hs.2.1
          rw [hdc, hfc] at hl
          simp at hl
        | cons c2 cs2 =>
          have hl := hs.2.1
          rw [hdc, hfc] at hl
          simp only [List.map_cons, List.cons.injEq] at hl
          simp [DF.nrow, hfc, hdc, hl.1]

/-! ### Evaluation facts used by the formatting witness -/

theorem needs_six_single_one : needs_six_decimals [Cell.num 1] = false := by
  have h1 : pyRound2 1 = 1 := pyRound2_of_den_one 1 (by decide)
  unfold needs_six_decimals
  rw [if_pos (by decide : is_numeric [Cell.num 1] = true), List.any_eq_false]
  intro x hx
  have hx1 : x = 1 := by simpa [numsOf] using hx
  subst hx1
  rw [decide_eq_true_iff, h1, sub_self, abs_zero]
  norm_num

theorem formatFixed_two_one : formatFixed 2 1 = "1.00" := by
  rw [formatFixed_eval 2 1 100 (by norm_num) (by norm_num)]
  decide

theorem format_df_example :
    format_df (fun _ => DecSetting.auto)
        ⟨[⟨"A", [Cell.num 1]⟩, ⟨"B", [Cell.str "x"]⟩]⟩ =
      some ⟨[⟨"A", [Cell.str "1.00"]⟩, ⟨"B", [Cell.str "x"]⟩]⟩ := by
  simp [format_df, format_cols, format_col, format_series, chosenDecimals,
    needs_six_single_one, formatFixed_two_one, astype_str, pyStr, is_numeric,
    cellNotStr]

/-- Witness for C9: formatting the two-column sheet
`A = [1]` (numeric), `B = ["x"]` (text) keeps both column names in order
and produces only string cells. -/
theorem c9_format_preserves_shape_witness :
    format_df (fun _ => DecSetting.auto)
        ⟨[⟨"A", [Cell.num 1]⟩, ⟨"B", [Cell.str "x"]⟩]⟩ =
      some ⟨[⟨"A", [Cell.str "1.00"]⟩, ⟨"B", [Cell.str "x"]⟩]⟩ ∧
    (DF.mk [⟨"A", [Cell.str "1.00"]⟩, ⟨"B", [Cell.str "x"]⟩]).cols.map
        (fun c => c.name) =
      (DF.mk [⟨"A", [Cell.num 1]⟩, ⟨"B", [Cell.str "x"]⟩]).cols.map
        (fun c => c.name) ∧
    ∀ c ∈ (DF.mk [⟨"A", [Cell.str "1.00"]⟩, ⟨"B", [Cell.str "x"]⟩]).cols,
      ∀ x ∈ c.cells, ∃ s0, x = Cell.str s0 := by
  have h := c9_format_preserves_shape
    ⟨[⟨"A", [Cell.num 1]⟩, ⟨"B", [Cell.str "x"]⟩]⟩ (fun _ => DecSetting.auto)
    ⟨[⟨"A", [Cell.str "1.00"]⟩, ⟨"B", [Cell.str "x"]⟩]⟩ format_df_example
  exact ⟨format_df_example, h.2.2.1, h.2.2.2.2⟩
